import Mathlib

/-!
# Shallow embedding of `backend.py` (interview-calendar)

The authoritative source is `src/backend.py`: the `Calendar` class backed by
an SQLite store with two tables, `people(username PRIMARY KEY, name)` and
`slots(username, date_from TEXT, date_to TEXT, FOREIGN KEY username)`.

Modelling decisions, each justified against the source:

* A Python `datetime` (naive, proleptic Gregorian, microsecond resolution)
  is embedded as a `Nat`: microseconds elapsed since 0001-01-01T00:00:00.
  `timedelta` subtraction and `total_seconds() <= 0` comparisons become
  arithmetic on these numbers.  Python datetimes are bounded by
  `datetime.max` (`maxUs` below); adding one hour past that bound raises
  `OverflowError`, which the expansion loop model reproduces.
* The store is an explicit record `DB` holding the two tables as lists in
  rowid (insertion) order; `SELECT ... WHERE username = x` is a filter that
  preserves that order, which is how SQLite answers these queries.
* Every SQL statement is built with `str.format` into single-quoted
  literals.  `sqlEmbed` models the embed-then-reparse round trip of a
  string value through such a literal: a value whose quote characters all
  come in doubled pairs parses back with each pair collapsed to one quote
  (SQL escape), while a lone quote ends the literal early and leaves
  trailing tokens that make these fixed statements fail, raising an
  uncaught `sqlite3.OperationalError` (only `IntegrityError` is caught).
  `none` models that exception.  Contrived inputs that re-form different
  valid SQL are also mapped to `none`; no theorem below depends on such
  inputs — the positive theorems restrict to quote-free strings, where the
  model is exact, and each counterexample input is hand-checked.
* The `slots` table stores `isoformat()` text.  We keep the numeric instant
  in the table and model the read-side round trip `strptime(isoformat(t),
  "%Y-%m-%dT%H:%M:%S")` explicitly: `isoformat` renders a fractional part
  exactly when the microsecond component is nonzero, in which case
  `strptime` raises `ValueError` (unconverted data remains).
* Raised exceptions (`OperationalError`, `ValueError`, `OverflowError`)
  are modelled as `Except.error ()`: the operation returns no envelope and
  leaves the store unchanged (no commit is reached).
* Python's dynamic typing at the `add_slots` / `organize_meeting` boundary
  (the `isinstance` checks) is modelled by a sum type `PyVal` of the value
  shapes those checks distinguish.
-/

/-- A dynamically typed Python value, as far as the `isinstance` checks in
`add_slots` and `organize_meeting` distinguish them.  `vDT` is a *naive*
`datetime` (the only kind the source and its tests construct; mixing naive
and timezone-aware datetimes would raise `TypeError` at the subtraction and
is outside this embedding).  Interviewer lists are lists of identifiers
(strings): a non-string element would simply match no stored username, and
no claim exercises that corner. -/
inductive PyVal where
  | vStr (s : String)
  | vDT (t : Nat)
  | vList (l : List String)
  | vInt (n : Int)
  | vNone
deriving DecidableEq

/-- The `code`/`desc` dictionary returned by the write operations
(`add_user`, `add_slots`). -/
structure Retval where
  code : Nat
  desc : String
deriving DecidableEq

/-- The `code`/`desc`/`data` dictionary returned by the read operations
(`get_user`, `get_slots`, `organize_meeting`). -/
structure DataRetval (α : Type) where
  code : Nat
  desc : String
  data : α
deriving DecidableEq

/-- The SQLite store: table `people` as (username, name) rows and table
`slots` as (username, date_from, date_to) rows, both in insertion (rowid)
order.  Stored strings are the *values SQLite read from the literals*
(doubled quotes already collapsed — see `sqlEmbed`); stored instants stand
for the TEXT `isoformat()` renderings (see `parseStored`). -/
structure DB where
  people : List (String × String)
  slots : List (String × Nat × Nat)
deriving DecidableEq

/-- Microseconds in one hour: `timedelta(seconds=3600)`. -/
def hourUs : Nat := 3600000000

/-- Microseconds in one second. -/
def usPerSec : Nat := 1000000

/-- Days from 0001-01-01 to the proleptic Gregorian date y-m-d
(`datetime.date(y, m, d).toordinal() - 1`), via the standard
era-of-400-years decomposition with the year starting on March 1. -/
def daysFromCivil (y m d : Nat) : Nat :=
  let y2 := if m ≤ 2 then y - 1 else y
  let era := y2 / 400
  let yoe := y2 % 400
  let mp := if 2 < m then m - 3 else m + 9
  let doy := (153 * mp + 2) / 5 + d - 1
  let doe := yoe * 365 + yoe / 4 - yoe / 100 + doy
  era * 146097 + doe - 306

/-- Inverse of `daysFromCivil`: the proleptic Gregorian (year, month, day)
of day number `n` counted from 0001-01-01, same era decomposition. -/
def civilFromDays (n : Nat) : Nat × Nat × Nat :=
  let z := n + 306
  let era := z / 146097
  let doe := z % 146097
  let yoe := (doe - doe / 1460 + doe / 36524 - doe / 146096) / 365
  let y := yoe + era * 400
  let doy := doe - (365 * yoe + yoe / 4 - yoe / 100)
  let mp := (5 * doy + 2) / 153
  let d := doy - (153 * mp + 2) / 5 + 1
  let m := if mp < 10 then mp + 3 else mp - 9
  (if m ≤ 2 then y + 1 else y, m, d)

/-- Decimal rendering of `n` left-padded with zeros to width `w`
(Python `"%0wd" % n`). -/
def padNum (w n : Nat) : String :=
  let s := toString n
  String.mk (List.replicate (w - s.length) '0') ++ s

/-- The instant `y-m-d h:00:00` plus `extraUs` microseconds, as microseconds
since 0001-01-01.  Mirrors `datetime(y, m, d, h)` construction in the tests. -/
def mkDT (y m d h extraUs : Nat) : Nat :=
  (daysFromCivil y m d * 86400 + h * 3600) * usPerSec + extraUs

/-- `datetime.max = 9999-12-31T23:59:59.999999`, in microseconds since
0001-01-01.  Any datetime arithmetic whose result would exceed this raises
`OverflowError`. -/
def maxUs : Nat := mkDT 9999 12 31 23 3599999999

/-- `datetime.isoformat()` for a naive datetime:
`YYYY-MM-DDTHH:MM:SS` followed by `.mmmmmm` exactly when the microsecond
component is nonzero. -/
def isoformat (t : Nat) : String :=
  let usec := t % usPerSec
  let totalSec := t / usPerSec
  let ymd := civilFromDays (totalSec / 86400)
  padNum 4 ymd.1 ++ "-" ++ padNum 2 ymd.2.1 ++ "-" ++ padNum 2 ymd.2.2 ++ "T" ++
    padNum 2 (totalSec / 3600 % 24) ++ ":" ++ padNum 2 (totalSec / 60 % 60) ++ ":" ++
    padNum 2 (totalSec % 60) ++
    (if usec = 0 then "" else "." ++ padNum 6 usec)

/-- `datetime.strptime(isoformat(t), "%Y-%m-%dT%H:%M:%S")`, the read-side
round trip `get_slots` performs on a stored instant: `isoformat` appends
`.mmmmmm` exactly when the microsecond component of `t` is nonzero, and on
such a string `strptime` raises `ValueError` (unconverted data remains);
otherwise the parse returns `t` itself.  `none` models the raised
exception. -/
def parseStored (t : Nat) : Option Nat :=
  if t % usPerSec = 0 then some t else none

/-- The single-quote character (U+0027), the SQL string-literal delimiter. -/
def quoteChar : Char := Char.ofNat 39

/-- Lexing the interior of a single-quoted SQL literal whose raw content is
`l` (the formatted statement wraps `l` in one quote on each side).  A
doubled quote is the SQL escape and yields one quote in the value; a lone
quote either closes the literal early (leaving trailing tokens that make
these fixed statements malformed) or, at the end, pairs with the closing
delimiter and swallows it (unterminated literal) — both raise
`sqlite3.OperationalError`, modelled as `none`. -/
def sqlScan : List Char → Option (List Char)
  | [] => some []
  | [c] => if c = quoteChar then none else some [c]
  | c :: c2 :: rest =>
    if c = quoteChar then
      if c2 = quoteChar then (sqlScan rest).map (fun v => c :: v) else none
    else (sqlScan (c2 :: rest)).map (fun v => c :: v)

/-- The value SQLite reads back from the `str.format`-embedded
single-quoted literal of `s` in the fixed statement templates of the
source; `none` models the uncaught `sqlite3.OperationalError` raised when
the statement no longer parses as intended (see `sqlScan`). -/
def sqlEmbed (s : String) : Option String :=
  (sqlScan s.data).map String.mk

/-- `s` contains no single-quote character; on such strings the SQL
embedding round trip is the identity. -/
def quoteFree (s : String) : Bool :=
  s.data.all (fun c => c ≠ quoteChar)

/-- A `PyVal` whose string payload, if any, is quote-free. -/
def pyStrQuoteFree : PyVal → Bool
  | .vStr s => quoteFree s
  | _ => true

namespace Calendar

/-- `Calendar.add_user`: `INSERT INTO people VALUES ('{u}','{n}')` by
string formatting.  If either literal fails to re-parse (lone quote), the
`execute` raises uncaught `sqlite3.OperationalError` — no envelope, store
unchanged.  Otherwise the *parsed* values are inserted; the `username`
PRIMARY KEY makes the insert raise `sqlite3.IntegrityError` (caught,
code 1) exactly when a row with that username exists; else the row is
appended and the operation succeeds. -/
def add_user (db : DB) (user_id name : String) : Except Unit Retval × DB :=
  match sqlEmbed user_id, sqlEmbed name with
  | some uv, some nv =>
    if db.people.any (fun r => r.1 = uv) then
      (.ok { code := 1, desc := "Cannot add user: user already exists" }, db)
    else
      (.ok { code := 0, desc := "Operation successful" },
       { db with people := db.people ++ [(uv, nv)] })
  | _, _ => (.error (), db)

/-- `Calendar.get_user`: `SELECT * FROM people WHERE username = '{u}'` by
string formatting — a non-reparsing literal raises uncaught
`OperationalError`.  Otherwise `retval` gets `row['name']` for each
returned row (the last row wins; the PRIMARY KEY makes at most one).
Always code 0, data initialised to the empty string. -/
def get_user (db : DB) (user_id : String) : Except Unit (DataRetval String) × DB :=
  (match sqlEmbed user_id with
   | some uv =>
     .ok { code := 0, desc := "Operation successful",
           data := (db.people.filter (fun r => r.1 = uv)).foldl (fun _ r => r.2) "" }
   | none => .error (), db)

/-- `Calendar.add_slots`.  In source order:
1. `isinstance` checks on the three arguments, else code 1;
2. `(slot_to - slot_from).total_seconds() <= 0`, i.e. `b ≤ a`, gives code 2;
3. the two `slot_from.replace(minute=0, second=0, microsecond=0)` /
   `slot_to.replace(...)` calls: `datetime.replace` returns a *new* value
   and both results are discarded, so the stored endpoints are the
   arguments unchanged — no rounding happens;
4. `INSERT INTO slots VALUES('{u}','{from}','{to}')` by string formatting
   (the two isoformat strings never contain quotes): a non-reparsing
   `user_id` literal makes `execute` raise uncaught `OperationalError`
   during SQL parsing, before any constraint check; otherwise the FOREIGN
   KEY on `username` (enabled by `PRAGMA foreign_keys = ON`) raises
   `IntegrityError`, code 3, exactly when the parsed `user_id` value is not
   in `people`; else the row is appended and the operation succeeds. -/
def add_slots (db : DB) (user_id slot_from slot_to : PyVal) : Except Unit Retval × DB :=
  match user_id, slot_from, slot_to with
  | .vStr u, .vDT a, .vDT b =>
    if b ≤ a then
      (.ok { code := 2, desc := "Error in add_slots: empty range" }, db)
    else
      match sqlEmbed u with
      | none => (.error (), db)
      | some uv =>
        if db.people.any (fun r => r.1 = uv) then
          (.ok { code := 0, desc := "Operation successful" },
           { db with slots := db.slots ++ [(uv, a, b)] })
        else
          (.ok { code := 3, desc := "Cannot add slot: integrity error" }, db)
  | _, _, _ =>
    (.ok { code := 1, desc := "Error in add_slots: parameters of wrong type" }, db)

end Calendar

/-- The `while date_from < date_to` loop body of `get_slots`, with an
explicit fuel argument to make the recursion structural: each iteration
advances `date_from` by `timedelta(seconds=3600)` (3600000000 µs), so
`b - a` iterations always suffice.  After *every* append the loop computes
`date_from + 1 hour`; when that exceeds `datetime.max` Python raises
`OverflowError`, discarding the whole call — modelled as `.error ()`. -/
def expandFuel : Nat → Nat → Nat → Except Unit (List Nat)
  | 0, _, _ => .ok []
  | fuel + 1, a, b =>
    if a < b then
      if maxUs < a + 3600000000 then .error ()
      else (expandFuel fuel (a + 3600000000) b).map (fun rest => a :: rest)
    else .ok []

/-- The slots emitted for one stored range `[a, b)`:
`while date_from < date_to: emit date_from; date_from += 1 hour`, with the
`OverflowError` of the increment past `datetime.max` as the error case. -/
def expand (a b : Nat) : Except Unit (List Nat) := expandFuel (b - a) a b

/-- The row loop of `get_slots` over the `SELECT` result: each row's
`date_from` and `date_to` TEXT is parsed back by `strptime` (which raises,
aborting the whole call, on a fractional-second rendering — see
`parseStored`), then the range is expanded hour by hour (which may raise
`OverflowError` — see `expand`) and each emitted `datetime` is appended as
its `isoformat()` string. -/
def slotsOfRows : List (String × Nat × Nat) → Except Unit (List String)
  | [] => .ok []
  | r :: rs =>
    match parseStored r.2.1, parseStored r.2.2 with
    | some a, some b => do
      let slots ← expand a b
      let rest ← slotsOfRows rs
      .ok (slots.map isoformat ++ rest)
    | _, _ => .error ()

namespace Calendar

/-- `Calendar.get_slots`: `SELECT * FROM slots WHERE username = '{u}'` by
string formatting (a non-reparsing literal raises uncaught
`OperationalError`), rows in insertion order, then the expansion loop of
`slotsOfRows`.  Always code 0 when it returns; `Except.error` models the
uncaught exceptions.  The connection state is returned unchanged: the
method only reads the tables. -/
def get_slots (db : DB) (user_id : String) :
    Except Unit (DataRetval (List String)) × DB :=
  (match sqlEmbed user_id with
   | none => .error ()
   | some uv =>
     match slotsOfRows (db.slots.filter (fun r => r.1 = uv)) with
     | .ok l => .ok { code := 0, desc := "Operation successful", data := l }
     | .error e => .error e, db)

end Calendar

/-- The `data` list of `get_slots` for one person, as used inside
`organize_meeting`. -/
def personSlots (db : DB) (p : String) : Except Unit (List String) :=
  (Calendar.get_slots db p).1.map (fun e => e.data)

/-- The concatenation, in traversal order, of every person's `get_slots`
data — the multiset that `aggr_times` tallies: `aggr_times[slot]` collects
one entry per *occurrence* of `slot` in this list, so the length of
`aggr_times[slot]` is its count here. -/
def allSlots (db : DB) : List String → Except Unit (List String)
  | [] => .ok []
  | p :: ps => do
    let s ← personSlots db p
    let rest ← allSlots db ps
    .ok (s ++ rest)

/-- Python `list.sort()` on strings: sort into lexicographic
(`≤` on `String`) order. -/
def sortStrings (l : List String) : List String :=
  l.insertionSort (fun a b => a ≤ b)

namespace Calendar

/-- `Calendar.organize_meeting`.  In source order: code 1 if `interviewers`
is not a list, code 2 if `interviewee` is not a string, code 3 if the list
is empty.  Otherwise every person in `interviewers + [interviewee]` is
queried with `get_slots`, each reported timestamp occurrence is tallied
into `aggr_times`, and a timestamp is kept iff its tally equals
`1 + len(interviewers)`.  The kept timestamps — one per distinct dict key,
so without duplicates — are sorted and returned with code 0.  (The dict
iterates its keys in first-insertion order; sorting makes the result
independent of that order, so the distinct keys are modelled by
`List.dedup`.) -/
def organize_meeting (db : DB) (interviewee interviewers : PyVal) :
    Except Unit (DataRetval (List String)) :=
  match interviewers with
  | .vList l =>
    match interviewee with
    | .vStr x =>
      if l.length = 0 then
        .ok { code := 3, desc := "Missing at least one interviewer", data := [] }
      else do
        let all ← allSlots db (l ++ [x])
        .ok { code := 0, desc := "Operation successful",
              data := sortStrings ((all.dedup).filter
                (fun t => all.count t = 1 + l.length)) }
    | _ => .ok { code := 2, desc := "Wrong interviewee name", data := [] }
  | _ => .ok { code := 1, desc := "Wrong list of interviewers", data := [] }

end Calendar

deriving instance DecidableEq for Except

/-- Spec-side counting helper: whether person `p` reported timestamp `t`
via `get_slots`. -/
def reportedBy (db : DB) (p : String) (t : String) : Bool :=
  match personSlots db p with
  | .ok l => t ∈ l
  | .error _ => false

/-- The number of distinct people among `persons` who reported timestamp
`t` via `get_slots`.  This definition follows the wording of the
specification sentence ("the number of people who reported it"), to be
compared against the occurrence count the source actually uses. -/
def peopleReporting (db : DB) (persons : List String) (t : String) : Nat :=
  ((persons.dedup).filter (fun p => reportedBy db p t)).length

set_option maxRecDepth 8000 in
/-- Ceiling-division step: removing one hour from a nonempty span lowers
the hour count by exactly one. -/
theorem ceilDiv_step (d : Nat) (hd : 0 < d) :
    (d + 3600000000 - 1) / 3600000000 =
      (d - 3600000000 + 3600000000 - 1) / 3600000000 + 1 := by
  omega

set_option maxRecDepth 8000 in
/-- Characterization of the `while` loop for any sufficient fuel: it
raises `OverflowError` exactly when it runs and the hour following its
last emitted slot exceeds `datetime.max`; otherwise it emits `a + k·1h`
for `k = 0 .. ⌈(b-a)/1h⌉ - 1`. -/
theorem expandFuel_spec : ∀ (fuel a b : Nat),
    (b - a + 3600000000 - 1) / 3600000000 ≤ fuel →
    expandFuel fuel a b =
      if a < b ∧
          maxUs < a + ((b - a + 3600000000 - 1) / 3600000000) * 3600000000 then
        .error ()
      else
        .ok ((List.range ((b - a + 3600000000 - 1) / 3600000000)).map
          (fun k => a + k * 3600000000)) := by
  intro fuel
  induction fuel with
  | zero =>
    intro a b h
    have h0 : (b - a + 3600000000 - 1) / 3600000000 = 0 := Nat.le_zero.mp h
    have hab : ¬ a < b := by omega
    rw [h0, if_neg (fun hc => hab hc.1)]
    rfl
  | succ fuel ih =>
    intro a b h
    have hunf : expandFuel (fuel + 1) a b =
        (if a < b then
          if maxUs < a + 3600000000 then .error ()
          else (expandFuel fuel (a + 3600000000) b).map (fun rest => a :: rest)
        else .ok []) := rfl
    by_cases hab : a < b
    · have hd : 0 < b - a := by omega
      have hstep := ceilDiv_step (b - a) hd
      have hsub : b - (a + 3600000000) = b - a - 3600000000 := by omega
      have hle : (b - (a + 3600000000) + 3600000000 - 1) / 3600000000 ≤ fuel := by
        clear ih hstep hsub hd
        omega
      have hn1 : 1 ≤ (b - a + 3600000000 - 1) / 3600000000 := by omega
      rw [hunf, if_pos hab]
      by_cases hov : maxUs < a + 3600000000
      · rw [if_pos hov, if_pos ⟨hab, by omega⟩]
      · rw [if_neg hov, ih (a + 3600000000) b hle]
        by_cases hc2 : a + 3600000000 < b ∧
            maxUs < a + 3600000000 +
              ((b - (a + 3600000000) + 3600000000 - 1) / 3600000000) * 3600000000
        · rcases hc2 with ⟨hc21, hc22⟩
          rw [if_pos ⟨hc21, hc22⟩]
          rw [hsub] at hc22
          rw [if_pos ⟨hab, by omega⟩]
          rfl
        · rw [if_neg hc2]
          rw [hsub] at hc2
          have hcond : ¬ (a < b ∧
              maxUs < a + ((b - a + 3600000000 - 1) / 3600000000) * 3600000000) := by
            rintro ⟨-, hov2⟩
            apply hc2
            constructor
            · omega
            · omega
          rw [if_neg hcond]
          show Except.ok
              (a :: (List.range
                ((b - (a + 3600000000) + 3600000000 - 1) / 3600000000)).map
                  (fun k => a + 3600000000 + k * 3600000000)) =
            Except.ok ((List.range ((b - a + 3600000000 - 1) / 3600000000)).map
              (fun k => a + k * 3600000000))
          rw [hsub, hstep, List.range_succ_eq_map, List.map_cons, List.map_map]
          simp only [Nat.zero_mul, Nat.add_zero, Function.comp]
          refine congrArg Except.ok (congrArg (List.cons a) ?_)
          apply List.map_congr_left
          intro k _
          show a + 3600000000 + k * 3600000000 = a + Nat.succ k * 3600000000
          omega
    · have h0 : (b - a + 3600000000 - 1) / 3600000000 = 0 := by omega
      rw [hunf, if_neg hab, h0, if_neg (fun hc => hab hc.1)]
      rfl

set_option maxRecDepth 8000 in
/-- Characterization of `expand`. -/
theorem expand_spec (a b : Nat) :
    expand a b =
      if a < b ∧
          maxUs < a + ((b - a + 3600000000 - 1) / 3600000000) * 3600000000 then
        .error ()
      else
        .ok ((List.range ((b - a + 3600000000 - 1) / 3600000000)).map
          (fun k => a + k * 3600000000)) := by
  show expandFuel (b - a) a b = _
  exact expandFuel_spec (b - a) a b (by omega)

set_option maxRecDepth 8000 in
/-- A successful expansion is the closed-form slot list. -/
theorem expand_ok_inv (a b : Nat) (l : List Nat) (h : expand a b = .ok l) :
    l = (List.range ((b - a + hourUs - 1) / hourUs)).map (fun k => a + k * hourUs) := by
  simp only [hourUs]
  rw [expand_spec] at h
  by_cases hc : (a < b ∧
      maxUs < a + ((b - a + 3600000000 - 1) / 3600000000) * 3600000000)
  · rw [if_pos hc] at h
    simp at h
  · rw [if_neg hc] at h
    cases h
    rfl

/-- A successful expansion never repeats an instant. -/
theorem expand_ok_nodup (a b : Nat) (l : List Nat) (h : expand a b = .ok l) :
    l.Nodup := by
  rw [expand_ok_inv a b l h]
  refine List.Nodup.map ?_ (List.nodup_range _)
  intro x y hxy
  simp only [hourUs] at hxy
  omega

/-- A quote-free character list scans to itself. -/
theorem sqlScan_no_quote : ∀ l : List Char, (∀ c ∈ l, ¬ c = quoteChar) →
    sqlScan l = some l := by
  intro l
  induction l with
  | nil => intro _; rfl
  | cons c rest ih =>
    intro h
    have hc : ¬ c = quoteChar := h c (List.mem_cons_self _ _)
    cases rest with
    | nil => simp [sqlScan, hc]
    | cons c2 rest2 =>
      have hrest := ih (fun x hx => h x (List.mem_cons_of_mem _ hx))
      simp [sqlScan, hc, hrest]

/-- On a quote-free string the SQL literal round trip is the identity. -/
theorem sqlEmbed_of_quoteFree (s : String) (h : quoteFree s = true) :
    sqlEmbed s = some s := by
  cases s with
  | mk data =>
    have h2 : ∀ c ∈ data, ¬ c = quoteChar := by
      intro c hc
      have := List.all_eq_true.mp h c hc
      exact of_decide_eq_true this
    show (sqlScan data).map String.mk = some (String.mk data)
    rw [sqlScan_no_quote data h2]
    rfl

/-- Whole-second instants round-trip through `strptime`. -/
theorem parseStored_whole (a : Nat) (h : a % usPerSec = 0) :
    parseStored a = some a := by
  simp [parseStored, h]

/-- One successful step of the `get_slots` row loop. -/
theorem slotsOfRows_cons_ok (u : String) (a b : Nat)
    (rs : List (String × Nat × Nat)) (l : List Nat) (rest : List String)
    (hp1 : a % usPerSec = 0) (hp2 : b % usPerSec = 0)
    (he : expand a b = .ok l) (hrest : slotsOfRows rs = .ok rest) :
    slotsOfRows ((u, a, b) :: rs) = .ok (l.map isoformat ++ rest) := by
  simp only [slotsOfRows, parseStored_whole a hp1, parseStored_whole b hp2,
    he, hrest]
  rfl

/-- `get_slots` on a quote-free identifier whose rows all process cleanly. -/
theorem get_slots_ok (db : DB) (u : String) (res : List String)
    (hq : sqlEmbed u = some u)
    (hrows : slotsOfRows (db.slots.filter (fun r => r.1 = u)) = .ok res) :
    Calendar.get_slots db u =
      (.ok { code := 0, desc := "Operation successful", data := res }, db) := by
  simp only [Calendar.get_slots, hq, hrows]

/-- `list.sort()` returns a permutation of its input. -/
theorem sortStrings_perm (l : List String) : (sortStrings l).Perm l :=
  List.perm_insertionSort _ l

/-- `list.sort()` sorts (lexicographically, `≤` on `String`). -/
theorem sortStrings_sorted (l : List String) :
    (sortStrings l).Sorted (fun a b => a ≤ b) :=
  List.sorted_insertionSort _ l

/-- Sorting does not change membership. -/
theorem mem_sortStrings {l : List String} {t : String} :
    t ∈ sortStrings l ↔ t ∈ l :=
  (sortStrings_perm l).mem_iff

/-- Occurrence count is at least preserved by mapping: every occurrence of
`x` in `l` yields an occurrence of `f x` in `l.map f`. -/
theorem count_map_ge {α β : Type} [DecidableEq α] [DecidableEq β]
    (f : α → β) (l : List α) (x : α) :
    l.count x ≤ (l.map f).count (f x) := by
  rw [List.count, List.count, List.countP_map]
  apply List.countP_mono_left
  intro a _ hax
  simp only [Function.comp_apply, beq_iff_eq] at hax ⊢
  rw [hax]

/-! ## Concrete scenario data for witnesses and counterexamples -/

/-- `datetime(2018, 11, 19, 8)`, Monday 08:00 of the test week. -/
def tNov19h8 : Nat := mkDT 2018 11 19 8 0

/-- `datetime(2018, 11, 19, 8, 30)`: a half-past-the-hour start. -/
def tHalfPast8 : Nat := mkDT 2018 11 19 8 1800000000

/-- `datetime(2018, 11, 19, 10, 30)`: a half-past-the-hour end. -/
def tHalfPast10 : Nat := mkDT 2018 11 19 10 1800000000

/-- `datetime(2018, 11, 19, 10)`. -/
def tNov19h10 : Nat := mkDT 2018 11 19 10 0

/-- `datetime(9999, 12, 31, 23)`: the last whole hour a datetime can hold. -/
def tLate : Nat := mkDT 9999 12 31 23 0

/-- `datetime(9999, 12, 31, 23, 30)`: a whole-second end past which the
loop increment overflows. -/
def tLateEnd : Nat := mkDT 9999 12 31 23 1800000000

/-- The identifier text `it` + quote + `s`, a string with a lone
single-quote character. -/
def strQuote : String := String.mk (['i', 't'] ++ [quoteChar] ++ ['s'])

/-- The display name `O` + quote + `Brien`, with a lone single-quote
character. -/
def nameOBrien : String := String.mk (['O'] ++ [quoteChar] ++ ['B', 'r', 'i', 'e', 'n'])

/-- The display name `a` + doubled quote + `b`: every quote doubled, so
the formatted SQL is valid but SQLite collapses the pair. -/
def nameDoubled : String := String.mk (['a'] ++ [quoteChar, quoteChar] ++ ['b'])

/-- The value SQLite actually stores for `nameDoubled`: `a` + one quote
+ `b`. -/
def nameUnescaped : String := String.mk (['a'] ++ [quoteChar] ++ ['b'])

/-- A store with one registered person and no ranges. -/
def dbOnePerson : DB := { people := [("p", "Pat")], slots := [] }

/-- An empty store. -/
def dbEmpty : DB := { people := [], slots := [] }

/-- A store where person `a` recorded the *same* one-hour range twice
(double-booked) and person `b` recorded nothing. -/
def dbDoubleBooked : DB :=
  { people := [("a", "Alice"), ("b", "Bob")],
    slots := [("a", tNov19h8, tNov19h8 + hourUs),
              ("a", tNov19h8, tNov19h8 + hourUs)] }

/-- The envelope `organize_meeting` returns on `dbDoubleBooked` for
interviewee `b` and interviewers `["a"]`. -/
def envCommonSlot : DataRetval (List String) :=
  { code := 0, desc := "Operation successful", data := [isoformat tNov19h8] }

/-- A store where `p` holds two overlapping ranges: `[08:00, 11:00)` and
`[09:00, 12:00)`. -/
def dbOverlap : DB :=
  { people := [("p", "Pat")],
    slots := [("p", tNov19h8, tNov19h8 + 3 * hourUs),
              ("p", tNov19h8 + hourUs, tNov19h8 + 4 * hourUs)] }

/-- A store where `p` holds two identical (hence overlapping) whole-second
ranges `[9999-12-31T23:00, 9999-12-31T23:30)`, at the very top of the
datetime range. -/
def dbLate : DB :=
  { people := [("p", "Pat")],
    slots := [("p", tLate, tLateEnd), ("p", tLate, tLateEnd)] }

/-- A store where `x` holds the overlapping ranges `[08:00, 10:00)` and
`[09:00, 10:00)` (so hour 09:00 is reported twice) and `y` holds
`[08:00, 10:00)`. -/
def dbOverlapPair : DB :=
  { people := [("x", "Xena"), ("y", "Yuri")],
    slots := [("x", tNov19h8, tNov19h8 + 2 * hourUs),
              ("x", tNov19h8 + hourUs, tNov19h8 + 2 * hourUs),
              ("y", tNov19h8, tNov19h8 + 2 * hourUs)] }

/-- The envelope `organize_meeting` returns on `dbOverlapPair` for
interviewee `x` and interviewers `["y"]`. -/
def envMeetingX : DataRetval (List String) :=
  { code := 0, desc := "Operation successful", data := [isoformat tNov19h8] }

/-- A store with one registered person whose display name is `Old Name`. -/
def dbOneUser : DB := { people := [("p", "Old Name")], slots := [] }

/-! ## Claims -/

/-- C3: the claim says a successful `add_slots` stores the half-open range
with both endpoints rounded *down to the hour boundary*.  The code does
not: `datetime.replace` returns a new object and both results are
discarded, so `add_slots` at 08:30 → 10:30 succeeds yet stores the
endpoints unrounded (`08:30:00`, not `08:00:00`), contradicting the claim,
the spec's design intent, and the source's own docstring ("Minutes,
seconds, and microseconds are discarded/set to 0"). -/
theorem add_slots_does_not_truncate :
    (Calendar.add_slots dbOnePerson (.vStr "p") (.vDT tHalfPast8) (.vDT tHalfPast10)).1 =
      .ok { code := 0, desc := "Operation successful" } ∧
    (Calendar.add_slots dbOnePerson (.vStr "p") (.vDT tHalfPast8) (.vDT tHalfPast10)).2.slots
      = [("p", tHalfPast8, tHalfPast10)] ∧
    tHalfPast8 % hourUs ≠ 0 ∧
    tHalfPast10 % hourUs ≠ 0 ∧
    isoformat tHalfPast8 = "2018-11-19T08:30:00" ∧
    isoformat (tHalfPast8 / hourUs * hourUs) = "2018-11-19T08:00:00" := by
  refine ⟨by decide, by decide, by decide, by decide, by decide, by decide⟩

/-- C5: with an empty interviewer list `organize_meeting` fails with the
missing-interviewer code, and with a non-list (a string) it fails with the
invalid-interviewer-list code; both failure envelopes carry an empty data
payload.  Both checks fire before any store access. -/
theorem organize_meeting_arg_errors (db : DB) (x s : String) :
    ∃ e1 e2 : DataRetval (List String),
      Calendar.organize_meeting db (.vStr x) (.vList []) = .ok e1 ∧
      e1.code ≠ 0 ∧ e1.data = [] ∧
      Calendar.organize_meeting db (.vStr x) (.vStr s) = .ok e2 ∧
      e2.code ≠ 0 ∧ e2.data = [] :=
  ⟨_, _, rfl, by decide, rfl, rfl, by decide, rfl⟩

/-- C9: `get_slots` is a pure read — it returns the connection state
unchanged, so a second call on the state the first call returned yields the
identical outcome (the same envelope, or the same modelled exception) and
the same state. -/
theorem get_slots_idempotent (db : DB) (p : String) :
    (Calendar.get_slots (Calendar.get_slots db p).2 p).1 = (Calendar.get_slots db p).1 ∧
    (Calendar.get_slots (Calendar.get_slots db p).2 p).2 = (Calendar.get_slots db p).2 :=
  ⟨rfl, rfl⟩

/-- C4 (amended to quote-free identifiers): for a `user_id` whose string
payload has no single-quote character (so the formatted SQL parses and no
`OperationalError` escapes), `add_slots` always returns an envelope, whose
code is 0 exactly when the three arguments are a string and two (naive)
datetimes, the range is non-empty (`slot_from < slot_to`), and the user is
registered; in every other case (wrong type, empty range, unknown person)
the code is nonzero. -/
theorem add_slots_code_zero_iff (db : DB) (u f t : PyVal)
    (hq : pyStrQuoteFree u = true) :
    ∃ r, (Calendar.add_slots db u f t).1 = .ok r ∧
      (r.code = 0 ↔ ∃ s a b, u = .vStr s ∧ f = .vDT a ∧ t = .vDT b ∧ a < b ∧
        db.people.any (fun x => x.1 = s) = true) := by
  rcases u with s | t1 | l1 | n1 | _ <;> rcases f with s2 | a | l2 | n2 | _ <;>
    rcases t with s3 | b | l3 | n3 | _ <;> simp only [Calendar.add_slots]
  case vStr.vDT.vDT =>
    have es : sqlEmbed s = some s := sqlEmbed_of_quoteFree s hq
    rcases Nat.lt_or_ge a b with hab | hab
    · have hba : ¬ b ≤ a := by omega
      rw [if_neg hba]
      simp only [es]
      by_cases hreg : db.people.any (fun x => x.1 = s) = true
      · rw [if_pos hreg]
        refine ⟨_, rfl, ?_⟩
        constructor
        · intro _
          exact ⟨s, a, b, rfl, rfl, rfl, hab, hreg⟩
        · intro _
          rfl
      · rw [if_neg hreg]
        refine ⟨_, rfl, ?_⟩
        constructor
        · intro h3
          exact absurd h3 (by decide)
        · rintro ⟨s4, a4, b4, h1, h2, h3, h4, h5⟩
          cases h1; cases h2; cases h3
          exact absurd h5 hreg
    · have hba : b ≤ a := by omega
      rw [if_pos hba]
      refine ⟨_, rfl, ?_⟩
      constructor
      · intro h2
        exact absurd h2 (by decide)
      · rintro ⟨s4, a4, b4, h1, h2, h3, h4, h5⟩
        cases h1; cases h2; cases h3
        omega
  all_goals
    refine ⟨_, rfl, ?_⟩
    simp

/-- C4 witness: a registered quote-free user with a valid range. -/
theorem add_slots_code_zero_iff_witness :
    pyStrQuoteFree (.vStr "p") = true ∧
    (∃ r, (Calendar.add_slots dbOnePerson (.vStr "p")
        (.vDT tNov19h8) (.vDT tNov19h10)).1 = .ok r ∧
      (r.code = 0 ↔ ∃ s a b, PyVal.vStr "p" = .vStr s ∧
        PyVal.vDT tNov19h8 = .vDT a ∧ PyVal.vDT tNov19h10 = .vDT b ∧ a < b ∧
        dbOnePerson.people.any (fun x => x.1 = s) = true)) :=
  ⟨by decide,
   add_slots_code_zero_iff dbOnePerson (.vStr "p") (.vDT tNov19h8) (.vDT tNov19h10)
     (by decide)⟩

/-- C4 counterexample: a user identifier with a lone single-quote
character (a string, with valid naive datetimes, unregistered).  The claim
demands a nonzero code; the program instead raises uncaught
`sqlite3.OperationalError` from the malformed formatted INSERT and returns
no code at all. -/
theorem add_slots_quote_crash :
    Calendar.add_slots dbOnePerson (.vStr strQuote) (.vDT tNov19h8) (.vDT tNov19h10)
      = (.error (), dbOnePerson) ∧
    dbOnePerson.people.any (fun r => r.1 = strQuote) = false :=
  ⟨by decide, by decide⟩

/-- C6 (amended to quote-free strings): for identifiers and names without
a single-quote character — so the formatted SQL parses and the stored
value equals the argument — a successful registration of `P` with display
name `N` makes `get_user(P)` return exactly `N`, and looking up a never
registered quote-free `Q` succeeds (code 0) with empty-string data. -/
theorem register_lookup_roundtrip (db : DB) (P N Q : String)
    (hqP : quoteFree P = true) (hqN : quoteFree N = true) (hqQ : quoteFree Q = true)
    (hadd : (Calendar.add_user db P N).1 =
      .ok { code := 0, desc := "Operation successful" })
    (hQ : db.people.any (fun r => r.1 = Q) = false) :
    (Calendar.get_user (Calendar.add_user db P N).2 P).1 =
      .ok { code := 0, desc := "Operation successful", data := N } ∧
    (Calendar.get_user db Q).1 =
      .ok { code := 0, desc := "Operation successful", data := "" } := by
  have eP := sqlEmbed_of_quoteFree P hqP
  have eN := sqlEmbed_of_quoteFree N hqN
  have eQ := sqlEmbed_of_quoteFree Q hqQ
  have hfQ : db.people.filter (fun r => r.1 = Q) = [] := by
    rw [List.filter_eq_nil_iff]
    intro r hr
    exact List.any_eq_false.mp hQ r hr
  cases hb : db.people.any (fun r => r.1 = P) with
  | true =>
    simp [Calendar.add_user, eP, eN, hb] at hadd
  | false =>
    have hstep : (Calendar.add_user db P N).2 =
        { db with people := db.people ++ [(P, N)] } := by
      simp [Calendar.add_user, eP, eN, hb]
    have hfP : db.people.filter (fun r => r.1 = P) = [] := by
      rw [List.filter_eq_nil_iff]
      intro r hr
      exact List.any_eq_false.mp hb r hr
    constructor
    · rw [hstep]
      simp only [Calendar.get_user, eP]
      have hdata : (((db.people ++ [(P, N)]).filter (fun r => r.1 = P)).foldl
          (fun _ r => r.2) "") = N := by
        rw [List.filter_append, hfP]
        simp
      rw [hdata]
    · simp only [Calendar.get_user, eQ]
      rw [hfQ]
      rfl

/-- C6 witness: concrete round trip on the empty store. -/
theorem register_lookup_roundtrip_witness :
    (quoteFree "p" = true ∧ quoteFree "Pat Doe" = true ∧ quoteFree "q" = true ∧
     (Calendar.add_user dbEmpty "p" "Pat Doe").1 =
       .ok { code := 0, desc := "Operation successful" } ∧
     dbEmpty.people.any (fun r => r.1 = "q") = false) ∧
    ((Calendar.get_user (Calendar.add_user dbEmpty "p" "Pat Doe").2 "p").1 =
       .ok { code := 0, desc := "Operation successful", data := "Pat Doe" } ∧
     (Calendar.get_user dbEmpty "q").1 =
       .ok { code := 0, desc := "Operation successful", data := "" }) :=
  ⟨⟨by decide, by decide, by decide, by decide, by decide⟩,
   register_lookup_roundtrip dbEmpty "p" "Pat Doe" "q"
     (by decide) (by decide) (by decide) (by decide) (by decide)⟩

/-- C6 counterexample: a display name whose quote characters are doubled.
The insert is valid SQL, so `add_user` succeeds (code 0), but SQLite
collapses the doubled quote, so `get_user` returns a *different* string
than the argument — the round trip fails while every status is 0. -/
theorem register_roundtrip_unescapes_quotes :
    (Calendar.add_user dbEmpty "p" nameDoubled).1 =
      .ok { code := 0, desc := "Operation successful" } ∧
    (Calendar.get_user (Calendar.add_user dbEmpty "p" nameDoubled).2 "p").1 =
      .ok { code := 0, desc := "Operation successful", data := nameUnescaped } ∧
    ¬ nameUnescaped = nameDoubled :=
  ⟨by decide, by decide, by decide⟩

/-- C8 (amended to a quote-free new name): registering an
already-registered identifier with a quote-free replacement name is
rejected with code 1, the store is unchanged, and a lookup still returns
the original display name. -/
theorem duplicate_registration_rejected (db : DB) (P N N2 : String)
    (hqP : quoteFree P = true) (hqN2 : quoteFree N2 = true)
    (hP : db.people.filter (fun r => r.1 = P) = [(P, N)]) :
    (Calendar.add_user db P N2).1 =
      .ok { code := 1, desc := "Cannot add user: user already exists" } ∧
    (Calendar.add_user db P N2).2 = db ∧
    (Calendar.get_user (Calendar.add_user db P N2).2 P).1 =
      .ok { code := 0, desc := "Operation successful", data := N } := by
  have eP := sqlEmbed_of_quoteFree P hqP
  have eN2 := sqlEmbed_of_quoteFree N2 hqN2
  have hb : db.people.any (fun r => r.1 = P) = true := by
    rw [List.any_eq_true]
    have hmem : (P, N) ∈ db.people.filter (fun r => r.1 = P) := by
      rw [hP]
      exact List.mem_singleton.mpr rfl
    rcases List.mem_filter.mp hmem with ⟨hmem2, hprop⟩
    exact ⟨(P, N), hmem2, hprop⟩
  have h1 : Calendar.add_user db P N2 =
      (.ok { code := 1, desc := "Cannot add user: user already exists" }, db) := by
    simp [Calendar.add_user, eP, eN2, hb]
  refine ⟨by rw [h1], by rw [h1], ?_⟩
  rw [h1]
  simp only [Calendar.get_user, eP]
  have hdata : ((db.people.filter (fun r => r.1 = P)).foldl (fun _ r => r.2) "") = N := by
    rw [hP]
    rfl
  rw [hdata]

/-- C8 witness: duplicate registration of `p` on a one-user store. -/
theorem duplicate_registration_rejected_witness :
    (quoteFree "p" = true ∧ quoteFree "New Name" = true ∧
     dbOneUser.people.filter (fun r => r.1 = "p") = [("p", "Old Name")]) ∧
    ((Calendar.add_user dbOneUser "p" "New Name").1 =
       .ok { code := 1, desc := "Cannot add user: user already exists" } ∧
     (Calendar.add_user dbOneUser "p" "New Name").2 = dbOneUser ∧
     (Calendar.get_user (Calendar.add_user dbOneUser "p" "New Name").2 "p").1 =
       .ok { code := 0, desc := "Operation successful", data := "Old Name" }) :=
  ⟨⟨by decide, by decide, by decide⟩,
   duplicate_registration_rejected dbOneUser "p" "Old Name" "New Name"
     (by decide) (by decide) (by decide)⟩

/-- C8 counterexample: a replacement name with a lone single-quote
character.  The formatted INSERT is malformed SQL, so the second
`add_user` raises uncaught `sqlite3.OperationalError` before the PRIMARY
KEY check — no nonzero code is returned, contrary to the claim for an
arbitrary new name. -/
theorem duplicate_user_quote_crash :
    dbOneUser.people.filter (fun r => r.1 = "p") = [("p", "Old Name")] ∧
    Calendar.add_user dbOneUser "p" nameOBrien = (.error (), dbOneUser) :=
  ⟨by decide, by decide⟩

/-- C7 (amended to calls on which `get_slots` returns): for a quote-free
person whose stored rows are exactly two ranges whose endpoints are
whole-second and whose expansions both succeed (no `OverflowError` at
`datetime.max`), any hour slot emitted by both expansions occurs twice in
the underlying instant sequence, and its rendering occurs at least twice
in the data `get_slots` returns — the duplicate is passed through, not
removed. -/
theorem overlapping_ranges_duplicate (db : DB) (p : String) (a1 b1 a2 b2 h : Nat)
    (l1 l2 : List Nat)
    (hqp : quoteFree p = true)
    (hrows : db.slots.filter (fun r => r.1 = p) = [(p, a1, b1), (p, a2, b2)])
    (hp1 : a1 % usPerSec = 0) (hp2 : b1 % usPerSec = 0)
    (hp3 : a2 % usPerSec = 0) (hp4 : b2 % usPerSec = 0)
    (he1 : expand a1 b1 = .ok l1) (he2 : expand a2 b2 = .ok l2)
    (hm1 : h ∈ l1) (hm2 : h ∈ l2) :
    ∃ env, (Calendar.get_slots db p).1 = .ok env ∧
      env.data = l1.map isoformat ++ l2.map isoformat ∧
      (l1 ++ l2).count h = 2 ∧
      2 ≤ env.data.count (isoformat h) := by
  have ep := sqlEmbed_of_quoteFree p hqp
  have hrows2 : slotsOfRows (db.slots.filter (fun r => r.1 = p)) =
      .ok (l1.map isoformat ++ (l2.map isoformat ++ [])) := by
    rw [hrows]
    exact slotsOfRows_cons_ok p a1 b1 _ l1 _ hp1 hp2 he1
      (slotsOfRows_cons_ok p a2 b2 [] l2 [] hp3 hp4 he2 rfl)
  have hget := get_slots_ok db p _ ep hrows2
  have hc1 := List.count_eq_one_of_mem (expand_ok_nodup a1 b1 l1 he1) hm1
  have hc2 := List.count_eq_one_of_mem (expand_ok_nodup a2 b2 l2 he2) hm2
  have hg1 := count_map_ge isoformat l1 h
  have hg2 := count_map_ge isoformat l2 h
  refine ⟨{ code := 0, desc := "Operation successful",
            data := l1.map isoformat ++ (l2.map isoformat ++ []) }, ?_, ?_, ?_, ?_⟩
  · rw [hget]
  · show l1.map isoformat ++ (l2.map isoformat ++ []) = _
    rw [List.append_nil]
  · rw [List.count_append, hc1, hc2]
  · show 2 ≤ (l1.map isoformat ++ (l2.map isoformat ++ [])).count (isoformat h)
    rw [List.append_nil, List.count_append]
    omega

/-- C7 witness: `p` holds `[08:00, 11:00)` and `[09:00, 12:00)`; hour
09:00 lies in both expansions and is reported twice. -/
theorem overlapping_ranges_duplicate_witness :
    (quoteFree "p" = true ∧
     dbOverlap.slots.filter (fun r => r.1 = "p") =
       [("p", tNov19h8, tNov19h8 + 3 * hourUs),
        ("p", tNov19h8 + hourUs, tNov19h8 + 4 * hourUs)] ∧
     expand tNov19h8 (tNov19h8 + 3 * hourUs) =
       .ok [tNov19h8, tNov19h8 + hourUs, tNov19h8 + 2 * hourUs] ∧
     expand (tNov19h8 + hourUs) (tNov19h8 + 4 * hourUs) =
       .ok [tNov19h8 + hourUs, tNov19h8 + 2 * hourUs, tNov19h8 + 3 * hourUs] ∧
     tNov19h8 + hourUs ∈ [tNov19h8, tNov19h8 + hourUs, tNov19h8 + 2 * hourUs] ∧
     tNov19h8 + hourUs ∈
       [tNov19h8 + hourUs, tNov19h8 + 2 * hourUs, tNov19h8 + 3 * hourUs]) ∧
    (∃ env, (Calendar.get_slots dbOverlap "p").1 = .ok env ∧
      env.data = [tNov19h8, tNov19h8 + hourUs, tNov19h8 + 2 * hourUs].map isoformat ++
        [tNov19h8 + hourUs, tNov19h8 + 2 * hourUs, tNov19h8 + 3 * hourUs].map isoformat ∧
      ([tNov19h8, tNov19h8 + hourUs, tNov19h8 + 2 * hourUs] ++
        [tNov19h8 + hourUs, tNov19h8 + 2 * hourUs, tNov19h8 + 3 * hourUs]).count
          (tNov19h8 + hourUs) = 2 ∧
      2 ≤ env.data.count (isoformat (tNov19h8 + hourUs))) :=
  ⟨⟨by decide, by decide, by decide, by decide, by decide, by decide⟩,
   overlapping_ranges_duplicate dbOverlap "p" tNov19h8 (tNov19h8 + 3 * hourUs)
     (tNov19h8 + hourUs) (tNov19h8 + 4 * hourUs) (tNov19h8 + hourUs)
     [tNov19h8, tNov19h8 + hourUs, tNov19h8 + 2 * hourUs]
     [tNov19h8 + hourUs, tNov19h8 + 2 * hourUs, tNov19h8 + 3 * hourUs]
     (by decide) (by decide) (by decide) (by decide) (by decide) (by decide)
     (by decide) (by decide) (by decide) (by decide)⟩

/-- C7 counterexample: a reachable store where `p` holds two identical
(hence overlapping) whole-second ranges `[9999-12-31T23:00, 23:30)`.
Hour 23:00 is covered by both, yet `get_slots` raises `OverflowError`
when the loop increments past `datetime.max` (modelled `Except.error`), so
no data is returned at all — the common hour does not appear twice. -/
theorem overlapping_ranges_overflow_crash :
    dbLate.slots.filter (fun r => r.1 = "p") =
      [("p", tLate, tLateEnd), ("p", tLate, tLateEnd)] ∧
    tLate < tLateEnd ∧
    tLate % usPerSec = 0 ∧ tLateEnd % usPerSec = 0 ∧
    (Calendar.get_slots dbLate "p").1 = .error () :=
  ⟨by decide, by decide, by decide, by decide, by decide⟩

/-- C10: whenever `organize_meeting` returns an envelope, its data list has
no duplicate timestamps: the qualifying slots are distinct keys of the
tally dictionary, appended once each and then sorted. -/
theorem organize_meeting_no_duplicates (db : DB) (x ivs : PyVal)
    (env : DataRetval (List String))
    (h : Calendar.organize_meeting db x ivs = .ok env) : env.data.Nodup := by
  rcases ivs with s | t | l | n | _
  case vList =>
    rcases x with xs | xt | xl | xn | _
    case vStr =>
      by_cases hl : l.length = 0
      · rw [Calendar.organize_meeting, if_pos hl] at h
        cases h
        exact List.nodup_nil
      · rw [Calendar.organize_meeting, if_neg hl] at h
        cases hall : allSlots db (l ++ [xs]) with
        | error e =>
          rw [hall] at h
          simp [Bind.bind, Except.bind] at h
        | ok all =>
          rw [hall] at h
          have henv : env = { code := 0, desc := "Operation successful",
                              data := sortStrings ((all.dedup).filter
                                (fun t => all.count t = 1 + l.length)) } := by
            cases h
            rfl
          rw [henv]
          show (sortStrings _).Nodup
          rw [(sortStrings_perm _).nodup_iff]
          exact (List.nodup_dedup all).filter _
    all_goals
      simp only [Calendar.organize_meeting] at h
      cases h
      exact List.nodup_nil
  all_goals
    simp only [Calendar.organize_meeting] at h
    cases h
    exact List.nodup_nil

/-- C10 witness: on `dbOverlapPair`, `x` has overlapping ranges reporting
hour 09:00 twice, yet the meeting result lists hour 08:00 exactly once. -/
theorem organize_meeting_no_duplicates_witness :
    Calendar.organize_meeting dbOverlapPair (.vStr "x") (.vList ["y"]) = .ok envMeetingX ∧
    envMeetingX.data.Nodup :=
  ⟨by decide,
   organize_meeting_no_duplicates dbOverlapPair (.vStr "x") (.vList ["y"])
     envMeetingX (by decide)⟩

/-- C1 (amended): for a string interviewee and a non-empty interviewer
list, whenever `organize_meeting` returns an envelope (no participant's
`get_slots` raises), the envelope has code 0, its data is sorted
lexicographically, and a timestamp appears in the data iff the total
number of *occurrence reports* of that timestamp — over the traversal
`interviewers + [interviewee]`, duplicates from overlapping ranges and
repeated list entries included — equals `1 + |interviewers|`. -/
theorem organize_meeting_common_slots (db : DB) (x : String) (l : List String)
    (env : DataRetval (List String)) (hne : l ≠ [])
    (h : Calendar.organize_meeting db (.vStr x) (.vList l) = .ok env) :
    env.code = 0 ∧ List.Sorted (fun a b : String => a ≤ b) env.data ∧
    ∃ all, allSlots db (l ++ [x]) = .ok all ∧
      ∀ t, t ∈ env.data ↔ all.count t = 1 + l.length := by
  have hl : ¬ l.length = 0 := by
    simpa [List.length_eq_zero] using hne
  rw [Calendar.organize_meeting, if_neg hl] at h
  cases hall : allSlots db (l ++ [x]) with
  | error e =>
    rw [hall] at h
    simp [Bind.bind, Except.bind] at h
  | ok all =>
    rw [hall] at h
    have henv : env = { code := 0, desc := "Operation successful",
                        data := sortStrings ((all.dedup).filter
                          (fun t => all.count t = 1 + l.length)) } := by
      cases h
      rfl
    subst henv
    refine ⟨rfl, sortStrings_sorted _, all, rfl, ?_⟩
    intro t
    show t ∈ sortStrings _ ↔ _
    rw [mem_sortStrings, List.mem_filter]
    constructor
    · rintro ⟨-, hp⟩
      exact of_decide_eq_true hp
    · intro hc
      have hpos : 0 < all.count t := by omega
      refine ⟨List.mem_dedup.mpr (List.count_pos_iff.mp hpos), ?_⟩
      exact decide_eq_true hc

/-- C1 counterexample: on `dbDoubleBooked`, interviewee `b` (no slots) and
interviewers `["a"]` (the same hour reported twice), `organize_meeting`
returns hour 08:00 as a common slot although only one *person* reported
it: the source counts raw occurrences, not people, so membership is not
equivalent to "number of people who reported it = 1 + |interviewers|". -/
theorem organize_meeting_counts_occurrences_not_people :
    Calendar.organize_meeting dbDoubleBooked (.vStr "b") (.vList ["a"]) = .ok envCommonSlot ∧
    ¬ (isoformat tNov19h8 ∈ envCommonSlot.data ↔
        peopleReporting dbDoubleBooked (["a"] ++ ["b"]) (isoformat tNov19h8)
          = 1 + (["a"] : List String).length) :=
  ⟨by decide, by decide⟩

/-- C1 witness: the amended characterization applied to the same concrete
meeting query. -/
theorem organize_meeting_common_slots_witness :
    ((["a"] : List String) ≠ [] ∧
     Calendar.organize_meeting dbDoubleBooked (.vStr "b") (.vList ["a"]) = .ok envCommonSlot) ∧
    (envCommonSlot.code = 0 ∧
     List.Sorted (fun a b : String => a ≤ b) envCommonSlot.data ∧
     ∃ all, allSlots dbDoubleBooked (["a"] ++ ["b"]) = .ok all ∧
       ∀ t, t ∈ envCommonSlot.data ↔ all.count t = 1 + (["a"] : List String).length) :=
  ⟨⟨by decide, by decide⟩,
   organize_meeting_common_slots dbDoubleBooked "b" ["a"] envCommonSlot
     (by decide) (by decide)⟩
